import Mathlib

/-!
Shallow embedding of the telemetry-export helpers of the Battery_Simulator
dashboard (src/Battery_Simulator.py): the Simple CSV export built from the
simulation DataFrame (lines 124-134) and the detailed report builder
generate_simulation_csv (lines 136-179).

Modelling conventions:
* Python floats are modelled as rationals; Python round(x, d) is modelled as
  round-half-to-even at d decimal places over the rationals.
* The start timestamp is modelled as a count of seconds since midnight; the
  strftime clock rendering reduces hours modulo 24.
* Python max over an empty sequence raises ValueError, modelled by Option.
* pandas to_csv cell rendering is modelled per cell type: str cells verbatim,
  int cells in plain decimal, float cells as shortest decimal (integer part,
  point, fractional digits with trailing zeros removed, at least one digit).
-/

/-- Decimal digit character for a value below ten. -/
def digitCh : ℕ → Char
  | 0 => '0'
  | 1 => '1'
  | 2 => '2'
  | 3 => '3'
  | 4 => '4'
  | 5 => '5'
  | 6 => '6'
  | 7 => '7'
  | 8 => '8'
  | _ => '9'

/-- Decimal digit characters of a natural number, most significant first. -/
def natDigits (n : ℕ) : List Char :=
  if _h : n < 10 then [digitCh n]
  else natDigits (n / 10) ++ [digitCh (n % 10)]
termination_by n
decreasing_by exact Nat.div_lt_self (by omega) (by omega)

/-- Render a natural number in decimal, as Python str does. -/
def natStr (n : ℕ) : String := String.mk (natDigits n)

/-- Render an integer in decimal, as Python str does. -/
def intStr : ℤ → String
  | Int.ofNat n => natStr n
  | Int.negSucc n => "-" ++ natStr (n + 1)

/-- Zero-padded two-digit decimal rendering: the Python format spec 02d. -/
def pad2 (n : ℕ) : String := if n < 10 then "0" ++ natStr n else natStr n

/-- Round a rational to the nearest integer, ties to the even integer:
the rounding mode of Python round. -/
def roundHalfEven (q : ℚ) : ℤ :=
  let n := ⌊q⌋
  if q - n < 1 / 2 then n
  else if 1 / 2 < q - n then n + 1
  else if n % 2 = 0 then n else n + 1

/-- Python round(q, d): round to d decimal places. -/
def pyRound (q : ℚ) (d : ℕ) : ℚ := (roundHalfEven (q * 10 ^ d) : ℚ) / 10 ^ d

/-- Python max over a list, folding from the left; none on the empty list
(where Python raises ValueError). -/
def listMax : List ℚ → Option ℚ
  | [] => none
  | x :: xs => some (xs.foldl max x)

/-- Drop trailing zero digits from a fraction of the given digit count,
keeping at least one digit: first component is the remaining fraction value,
second the remaining digit count. -/
def stripTail : ℕ → ℕ → ℕ × ℕ
  | f, 0 => (f, 0)
  | f, l + 1 => if f % 10 = 0 ∧ l ≠ 0 then stripTail (f / 10) l else (f, l + 1)

/-- Exactly l decimal digit characters of f (assuming f < 10 ^ l),
most significant first, zero padded on the left. -/
def padDigits : ℕ → ℕ → List Char
  | 0, _ => []
  | l + 1, f => padDigits l (f / 10) ++ [digitCh (f % 10)]

/-- Characters of the decimal rendering of a rational with at most six decimal
places: sign, integer part, point, fractional digits with trailing zeros
stripped but at least one digit kept. This is how Python repr prints the float
values occurring in the program (all rounded to at most six decimals). -/
def renderQChars (q : ℚ) : List Char :=
  let m := (roundHalfEven (|q| * 1000000)).toNat
  let p := stripTail (m % 1000000) 6
  (if q < 0 then ['-'] else []) ++ natDigits (m / 1000000) ++ '.' :: padDigits p.2 p.1

/-- Decimal rendering of a float cell, as a string. -/
def renderQ (q : ℚ) : String := String.mk (renderQChars q)

/-- One row of the Test Data section of the detailed report. -/
structure TestRow where
  sample_id : ℕ
  sampling_time : String
  termination : String
  actual_time : String
  voltage : ℚ
  current : ℚ
  capacity : ℚ
  energy : ℚ
  step_type : String
  cycle_count : ℕ
  step_num : ℕ
  dc_resist : ℕ
  temperature : ℚ
deriving DecidableEq

/-- The single row of the Cycle Statistics section. -/
structure StatsRow where
  cycle_num : ℕ
  cc_charge : ℚ
  cv_charge : ℕ
  total_charge : ℚ
  total_disch : ℚ
  cc_charge_time : String
  cv_charge_time : String
  cc_disch_time : String
  total_disch_time : String
  efficiency : ℚ
  capacity_pct : ℕ
  avg_disch_volt : ℚ
  median_volt : ℚ
  max_temp : ℚ
  dc_resistance : ℚ
deriving DecidableEq

/-- One entry of the jump_events argument: a dict with keys timestamp,
sample_id and event. -/
structure JumpEvent where
  timestamp : String
  sample_id : ℤ
  event : String
deriving DecidableEq

/-- The test_data_rows list built by the loop over enumerate(zip(voltages,
temps, currents)) in generate_simulation_csv. -/
def test_data_rows (voltages temps currents : List ℚ) (start_time : ℕ) : List TestRow :=
  ((voltages.zip (temps.zip currents)).enum).map fun p =>
    { sample_id := p.1 + 1
      sampling_time := pad2 ((p.1 * 2) / 60) ++ ":" ++ pad2 ((p.1 * 2) % 60)
      termination := ""
      actual_time :=
        pad2 ((start_time + p.1 * 2) / 3600 % 24) ++ ":"
          ++ pad2 ((start_time + p.1 * 2) / 60 % 60) ++ ":"
          ++ pad2 ((start_time + p.1 * 2) % 60)
      voltage := p.2.1
      current := p.2.2.2
      capacity := pyRound (p.2.2.2 * 2 / 3600) 6
      energy := pyRound (pyRound (p.2.2.2 * 2 / 3600) 6 * p.2.1) 6
      step_type := if p.1 < voltages.length / 2 then "Constant Current" else "Rest"
      cycle_count := 1
      step_num := p.1 + 1
      dc_resist := 0
      temperature := p.2.2.1 }

/-- The stats_df row: every field a literal of the source except Max Temp,
which receives max(temps). -/
def cycle_stats_row (m : ℚ) : StatsRow :=
  { cycle_num := 1
    cc_charge := 0.056245
    cv_charge := 0
    total_charge := 0.056245
    total_disch := 0.042359
    cc_charge_time := "00:40.0"
    cv_charge_time := "00:00.0"
    cc_disch_time := "00:30.0"
    total_disch_time := "00:30.0"
    efficiency := 75.31297
    capacity_pct := 100
    avg_disch_volt := 3.207877
    median_volt := 3.207877
    max_temp := m
    dc_resistance := 15.6 }

/-- The Cycle Statistics row of the report, when temps is non-empty. -/
def cycle_statistics (temps : List ℚ) : Option StatsRow :=
  (listMax temps).map cycle_stats_row

/-- The op_log rows: one triple of cells per jump event, in input order. -/
def op_log (jump_events : List JumpEvent) : List (List String) :=
  jump_events.map fun e => [e.timestamp, intStr e.sample_id, e.event]

/-- Cell strings of a Test Data row, in the source's column order. -/
def testRowCells (r : TestRow) : List String :=
  [natStr r.sample_id, r.sampling_time, r.termination, r.actual_time,
   renderQ r.voltage, renderQ r.current, renderQ r.capacity, renderQ r.energy,
   r.step_type, natStr r.cycle_count, natStr r.step_num, natStr r.dc_resist,
   renderQ r.temperature]

/-- Cell strings of the Cycle Statistics row, in the source's column order. -/
def statsRowCells (r : StatsRow) : List String :=
  [natStr r.cycle_num, renderQ r.cc_charge, natStr r.cv_charge,
   renderQ r.total_charge, renderQ r.total_disch, r.cc_charge_time,
   r.cv_charge_time, r.cc_disch_time, r.total_disch_time, renderQ r.efficiency,
   natStr r.capacity_pct, renderQ r.avg_disch_volt, renderQ r.median_volt,
   renderQ r.max_temp, renderQ r.dc_resistance]

/-- Cell strings of the single Process Information row, all literals of the
source. -/
def procCells : List String :=
  ["CC‑CV Charge", "Constant Voltage", natStr 5, renderQ 3.65, renderQ 3.65,
   renderQ 0.05, natStr 6, "00:40.0", renderQ 0.03, natStr 0, natStr 1]

/-- Header row of the Test Data section. -/
def testHeader : List String :=
  ["Sample ID", "Sampling", "Termination", "Actual Time", "Voltage (V)",
   "Current (A)", "Capacity (Ah)", "Energy (Wh)", "Step Type", "Cycle Count",
   "Step Num", "DC Resist", "Temperature (°C)"]

/-- Header row of the Cycle Statistics section. -/
def statsHeader : List String :=
  ["Cycle Num", "CC Charge", "CV Charge", "Total Charge", "Total Disch",
   "CC Charge Time", "CV Charge Time", "CC Disch Time", "Total Disch Time",
   "Efficiency (%)", "Capacity (%)", "Avg Disch Volt", "Median Volt",
   "Max Temp", "DC Resistance (mΩ)"]

/-- Header row of the Operation Log section. -/
def opHeader : List String := ["Timestamp", "Sample ID", "Event Type"]

/-- Header row of the Process Information section. -/
def procHeader : List String :=
  ["Step Type", "Constant Type", "Voltage Limit", "Current Limit",
   "Capacity Limit", "Time Limit", "Temp Limit", "Delta V Limit",
   "Target Cap", "Step Num", "Jump Count"]

/-- One CSV record: comma-joined cells terminated by a newline. -/
def csvLine (cells : List String) : String :=
  String.intercalate "," cells ++ "\n"

/-- DataFrame.to_csv with index=False: header record then one record per row. -/
def csvTable (header : List String) (rows : List (List String)) : String :=
  csvLine header ++ String.join (rows.map csvLine)

/-- generate_simulation_csv: the full report text, or none when max(temps)
raises on an empty temperature sequence. The four sections are written in the
source's order, each preceded by its label line, with a leading newline before
every label after the first. -/
def generate_simulation_csv (voltages temps currents : List ℚ) (start_time : ℕ)
    (jump_events : List JumpEvent) : Option String :=
  match listMax temps with
  | none => none
  | some m =>
    some ("### Test Data ###\n"
      ++ csvTable testHeader
          ((test_data_rows voltages temps currents start_time).map testRowCells)
      ++ "\n### Cycle Statistics ###\n"
      ++ csvTable statsHeader [statsRowCells (cycle_stats_row m)]
      ++ "\n### Operation Log ###\n"
      ++ csvTable opHeader (op_log jump_events)
      ++ "\n### Process Information ###\n"
      ++ csvTable procHeader [procCells])

/-- One row of the Simple CSV export DataFrame: time tick and the three
telemetry values. -/
structure SimpleRow where
  time : ℕ
  voltage : ℚ
  current : ℚ
  temperature : ℚ
deriving DecidableEq

/-- Characters of the header record of the Simple CSV export. -/
def simpleHeader : List Char :=
  "Time (s),Voltage (V),Current (A),Temperature (°C)".data

/-- Characters of one data record of the Simple CSV export. -/
def simpleLine (r : SimpleRow) : List Char :=
  natDigits r.time ++ ',' :: (renderQChars r.voltage
    ++ ',' :: (renderQChars r.current ++ ',' :: renderQChars r.temperature))

/-- The Simple CSV export text: df.to_csv(csv_buffer, index=False) over the
four-column DataFrame. -/
def simpleCSV (rows : List SimpleRow) : String :=
  String.mk (simpleHeader ++ '\n' :: (rows.map fun r => simpleLine r ++ ['\n']).flatten)

/-- Split a character list at every occurrence of the separator. -/
def splitSep (sep : Char) : List Char → List (List Char)
  | [] => [[]]
  | c :: cs =>
    match splitSep sep cs with
    | [] => [[]]
    | l :: ls => if c = sep then [] :: l :: ls else (c :: l) :: ls

/-- Parse a nonempty run of decimal digit characters, accumulator style. -/
def parseNatAux (acc : ℕ) : List Char → Option ℕ
  | [] => some acc
  | c :: cs =>
    if 48 ≤ c.toNat ∧ c.toNat ≤ 57 then parseNatAux (acc * 10 + (c.toNat - 48)) cs
    else none

/-- Parse a decimal natural number; the empty string is rejected. -/
def parseNat : List Char → Option ℕ
  | [] => none
  | c :: cs => parseNatAux 0 (c :: cs)

/-- Parse a nonnegative decimal number, with or without a fractional part. -/
def parseDec (cs : List Char) : Option ℚ :=
  match splitSep '.' cs with
  | [ip] => (parseNat ip).map fun n => (n : ℚ)
  | [ip, fp] =>
    match parseNat ip, parseNat fp with
    | some i, some f => some ((i : ℚ) + (f : ℚ) / 10 ^ fp.length)
    | _, _ => none
  | _ => none

/-- Parse one data record of the Simple CSV export. -/
def parseLine (cs : List Char) : Option SimpleRow :=
  match splitSep ',' cs with
  | [t, v, c, tp] =>
    match parseNat t, parseDec v, parseDec c, parseDec tp with
    | some tn, some vq, some cq, some tq =>
      some { time := tn, voltage := vq, current := cq, temperature := tq }
    | _, _, _, _ => none
  | _ => none

/-- Parse a list of data records, failing if any record fails. -/
def parseLines : List (List Char) → Option (List SimpleRow)
  | [] => some []
  | l :: ls =>
    match parseLine l, parseLines ls with
    | some r, some rs => some (r :: rs)
    | _, _ => none

/-- Parse the Simple CSV export text back into its rows: check the header
record, require a trailing newline, parse every data record. -/
def parseSimpleCSV (s : String) : Option (List SimpleRow) :=
  match splitSep '\n' s.data with
  | [] => none
  | header :: rest =>
    if header = simpleHeader ∧ rest.getLast? = some [] then parseLines rest.dropLast
    else none

/-- Spec-side MM:SS rendering of a second count, zero-padded. -/
def fmtMMSS (n : ℕ) : String := pad2 (n / 60) ++ ":" ++ pad2 (n % 60)

/-- Spec-side HH:MM:SS clock rendering of a second count, zero-padded, hours
reduced modulo 24 as strftime does. -/
def fmtHMS (n : ℕ) : String :=
  pad2 (n / 3600 % 24) ++ ":" ++ pad2 (n / 60 % 60) ++ ":" ++ pad2 (n % 60)

lemma test_data_rows_length (v t c : List ℚ) (s : ℕ) :
    (test_data_rows v t c s).length = min v.length (min t.length c.length) := by
  simp [test_data_rows]

lemma test_data_rows_get (v t c : List ℚ) (s i : ℕ)
    (h : i < (test_data_rows v t c s).length)
    (hv : i < v.length) (ht : i < t.length) (hc : i < c.length) :
    (test_data_rows v t c s).get ⟨i, h⟩ =
      { sample_id := i + 1
        sampling_time := pad2 ((i * 2) / 60) ++ ":" ++ pad2 ((i * 2) % 60)
        termination := ""
        actual_time := pad2 ((s + i * 2) / 3600 % 24) ++ ":"
          ++ pad2 ((s + i * 2) / 60 % 60) ++ ":" ++ pad2 ((s + i * 2) % 60)
        voltage := v.get ⟨i, hv⟩
        current := c.get ⟨i, hc⟩
        capacity := pyRound (c.get ⟨i, hc⟩ * 2 / 3600) 6
        energy := pyRound (pyRound (c.get ⟨i, hc⟩ * 2 / 3600) 6 * v.get ⟨i, hv⟩) 6
        step_type := if i < v.length / 2 then "Constant Current" else "Rest"
        cycle_count := 1
        step_num := i + 1
        dc_resist := 0
        temperature := t.get ⟨i, ht⟩ } := by
  simp [test_data_rows, List.get_eq_getElem, List.getElem_map, List.getElem_enum,
    List.getElem_zip]

/-- C1: for every call, the Test Data section holds exactly
min(len voltages, len temps, len currents) data rows, carrying the voltages,
temperatures and currents in input order; equal-length inputs of length N give
exactly N rows, mismatched lengths silently truncate to the shortest. -/
theorem sampleTable_row_count_and_order (v t c : List ℚ) (s : ℕ) :
    (test_data_rows v t c s).length = min v.length (min t.length c.length)
    ∧ (test_data_rows v t c s).map TestRow.voltage
        = v.take (test_data_rows v t c s).length
    ∧ (test_data_rows v t c s).map TestRow.temperature
        = t.take (test_data_rows v t c s).length
    ∧ (test_data_rows v t c s).map TestRow.current
        = c.take (test_data_rows v t c s).length := by
  have hlen := test_data_rows_length v t c s
  refine ⟨hlen, ?_, ?_, ?_⟩ <;>
  · apply List.ext_getElem
    · simp only [List.length_map, List.length_take]
      omega
    · intro n h1 h2
      simp only [List.getElem_map, List.getElem_take]
      have hb : n < (test_data_rows v t c s).length := by simpa using h1
      rw [← List.get_eq_getElem (test_data_rows v t c s) ⟨n, hb⟩,
        test_data_rows_get v t c s n hb (by omega) (by omega) (by omega)]
      simp

/-- C2: for equal-length inputs of length N with N at least 1, the step_type
of the row at index i is Constant Current when i is below N/2 (integer
division) and Rest otherwise. -/
theorem stepType_fixed_partition (v t c : List ℚ) (s N : ℕ)
    (hv : v.length = N) (ht : t.length = N) (hc : c.length = N) (_hN : 1 ≤ N) :
    ∀ (i : ℕ) (h : i < (test_data_rows v t c s).length),
      ((test_data_rows v t c s).get ⟨i, h⟩).step_type =
        if i < N / 2 then "Constant Current" else "Rest" := by
  intro i h
  have hlen := test_data_rows_length v t c s
  rw [test_data_rows_get v t c s i h (by omega) (by omega) (by omega)]
  simp [hv]

/-- Witness for stepType_fixed_partition at N = 3: index 0 lies in the
Constant Current half and index 2 in the Rest half. -/
theorem stepType_fixed_partition_witness :
    ((test_data_rows [3.1, 3.2, 3.3] [30, 31, 32] [1, 2, 3] 0).get
        ⟨0, by decide⟩).step_type = (if 0 < 3 / 2 then "Constant Current" else "Rest")
    ∧ ((test_data_rows [3.1, 3.2, 3.3] [30, 31, 32] [1, 2, 3] 0).get
        ⟨2, by decide⟩).step_type = (if 2 < 3 / 2 then "Constant Current" else "Rest") :=
  ⟨stepType_fixed_partition [3.1, 3.2, 3.3] [30, 31, 32] [1, 2, 3] 0 3
      rfl rfl rfl (by decide) 0 (by decide),
    stepType_fixed_partition [3.1, 3.2, 3.3] [30, 31, 32] [1, 2, 3] 0 3
      rfl rfl rfl (by decide) 2 (by decide)⟩

/-- C4: every row's capacity_increment is current * 2 / 3600 rounded to six
decimals, and its energy_increment is capacity_increment * voltage rounded to
six decimals. -/
theorem increment_formulas (v t c : List ℚ) (s : ℕ) :
    ∀ (i : ℕ) (h : i < (test_data_rows v t c s).length),
      ((test_data_rows v t c s).get ⟨i, h⟩).capacity
        = pyRound (((test_data_rows v t c s).get ⟨i, h⟩).current * 2 / 3600) 6
      ∧ ((test_data_rows v t c s).get ⟨i, h⟩).energy
        = pyRound (((test_data_rows v t c s).get ⟨i, h⟩).capacity
            * ((test_data_rows v t c s).get ⟨i, h⟩).voltage) 6 := by
  intro i h
  have hlen := test_data_rows_length v t c s
  rw [test_data_rows_get v t c s i h (by omega) (by omega) (by omega)]
  exact ⟨rfl, rfl⟩

/-- Witness for increment_formulas: a sample with current 3600 has
capacity_increment exactly 2. -/
theorem increment_formulas_witness :
    (((test_data_rows [4] [30] [3600] 0).get ⟨0, by decide⟩).capacity
        = pyRound (((test_data_rows [4] [30] [3600] 0).get ⟨0, by decide⟩).current
            * 2 / 3600) 6
      ∧ ((test_data_rows [4] [30] [3600] 0).get ⟨0, by decide⟩).energy
        = pyRound (((test_data_rows [4] [30] [3600] 0).get ⟨0, by decide⟩).capacity
            * ((test_data_rows [4] [30] [3600] 0).get ⟨0, by decide⟩).voltage) 6)
    ∧ ((test_data_rows [4] [30] [3600] 0).get ⟨0, by decide⟩).capacity = 2 :=
  ⟨increment_formulas [4] [30] [3600] 0 0 (by decide), by
    rw [test_data_rows_get [4] [30] [3600] 0 0 (by decide) (by decide) (by decide)
      (by decide)]
    norm_num [pyRound, roundHalfEven]⟩

/-- C5: the row at index i has sample_id i + 1, sampling offset 2i seconds as
zero-padded MM:SS, and actual_time start_time plus 2i seconds as HH:MM:SS. -/
theorem sampleId_and_time_fields (v t c : List ℚ) (s : ℕ) :
    ∀ (i : ℕ) (h : i < (test_data_rows v t c s).length),
      ((test_data_rows v t c s).get ⟨i, h⟩).sample_id = i + 1
      ∧ ((test_data_rows v t c s).get ⟨i, h⟩).sampling_time = fmtMMSS (2 * i)
      ∧ ((test_data_rows v t c s).get ⟨i, h⟩).actual_time = fmtHMS (s + 2 * i) := by
  intro i h
  have hlen := test_data_rows_length v t c s
  rw [test_data_rows_get v t c s i h (by omega) (by omega) (by omega)]
  refine ⟨rfl, ?_, ?_⟩ <;> simp [fmtMMSS, fmtHMS, Nat.mul_comm i 2]

/-- Witness for sampleId_and_time_fields at index 1 with start time 3725
seconds after midnight. -/
theorem sampleId_and_time_fields_witness :
    ((test_data_rows [3.1, 3.2] [30, 31] [1, 2] 3725).get ⟨1, by decide⟩).sample_id = 2
    ∧ ((test_data_rows [3.1, 3.2] [30, 31] [1, 2] 3725).get
        ⟨1, by decide⟩).sampling_time = fmtMMSS (2 * 1)
    ∧ ((test_data_rows [3.1, 3.2] [30, 31] [1, 2] 3725).get
        ⟨1, by decide⟩).actual_time = fmtHMS (3725 + 2 * 1) :=
  sampleId_and_time_fields [3.1, 3.2] [30, 31] [1, 2] 3725 1 (by decide)

/-- C9: the Constant Current / Rest boundary is computed from the voltages
length alone, not from the truncated row count; when the voltages list is at
least twice as long as the shortest input, every emitted row is Constant
Current. -/
theorem stepType_uses_voltages_length (v t c : List ℚ) (s : ℕ) :
    (∀ (i : ℕ) (h : i < (test_data_rows v t c s).length),
        ((test_data_rows v t c s).get ⟨i, h⟩).step_type
          = if i < v.length / 2 then "Constant Current" else "Rest")
    ∧ (2 * min v.length (min t.length c.length) ≤ v.length →
        ∀ (i : ℕ) (h : i < (test_data_rows v t c s).length),
          ((test_data_rows v t c s).get ⟨i, h⟩).step_type = "Constant Current") := by
  have hlen := test_data_rows_length v t c s
  constructor
  · intro i h
    rw [test_data_rows_get v t c s i h (by omega) (by omega) (by omega)]
  · intro h2 i h
    rw [test_data_rows_get v t c s i h (by omega) (by omega) (by omega)]
    have hlt : i < v.length / 2 := by omega
    simp [hlt]

/-- Witness for stepType_uses_voltages_length: four voltages against a single
temperature and current give one row, and it is Constant Current. -/
theorem stepType_uses_voltages_length_witness :
    ((test_data_rows [3.1, 3.2, 3.3, 3.4] [30] [1] 0).get ⟨0, by decide⟩).step_type
        = (if 0 < 4 / 2 then "Constant Current" else "Rest")
    ∧ ((test_data_rows [3.1, 3.2, 3.3, 3.4] [30] [1] 0).get
        ⟨0, by decide⟩).step_type = "Constant Current" :=
  ⟨(stepType_uses_voltages_length [3.1, 3.2, 3.3, 3.4] [30] [1] 0).1 0 (by decide),
    (stepType_uses_voltages_length [3.1, 3.2, 3.3, 3.4] [30] [1] 0).2
      (by decide) 0 (by decide)⟩

lemma le_foldl_max (a : ℚ) (l : List ℚ) : a ≤ l.foldl max a := by
  induction l generalizing a with
  | nil => exact le_refl a
  | cons x xs ih => exact le_trans (le_max_left a x) (ih (max a x))

lemma foldl_max_mem (a : ℚ) (l : List ℚ) : l.foldl max a = a ∨ l.foldl max a ∈ l := by
  induction l generalizing a with
  | nil => exact Or.inl rfl
  | cons x xs ih =>
    rcases ih (max a x) with h | h
    · rcases max_choice a x with hm | hm
      · exact Or.inl (by rw [List.foldl_cons, h, hm])
      · exact Or.inr (by rw [List.foldl_cons, h, hm]; exact List.mem_cons_self x xs)
    · exact Or.inr (List.mem_cons_of_mem x h)

lemma mem_le_foldl_max (a : ℚ) (l : List ℚ) : ∀ x ∈ l, x ≤ l.foldl max a := by
  induction l generalizing a with
  | nil => intro x hx; cases hx
  | cons y ys ih =>
    intro x hx
    rcases List.mem_cons.1 hx with rfl | hx
    · exact le_trans (le_max_right a x) (le_foldl_max (max a x) ys)
    · exact ih (max a y) x hx

lemma listMax_spec (l : List ℚ) (m : ℚ) (h : listMax l = some m) :
    m ∈ l ∧ ∀ x ∈ l, x ≤ m := by
  cases l with
  | nil => simp [listMax] at h
  | cons y ys =>
    simp only [listMax, Option.some.injEq] at h
    subst h
    constructor
    · rcases foldl_max_mem y ys with h | h
      · rw [h]; exact List.mem_cons_self y ys
      · exact List.mem_cons_of_mem y h
    · intro x hx
      rcases List.mem_cons.1 hx with rfl | hx
      · exact le_foldl_max x ys
      · exact mem_le_foldl_max y ys x hx

/-- C3: with a non-empty temperature sequence the Cycle Statistics row is the
fixed-content row whose Max Temp field is the maximum of the whole sequence;
with an empty sequence the aggregate is empty and generate_simulation_csv
fails, so the caller must supply at least one sample. -/
theorem cycleStats_max_temp (temps : List ℚ) :
    (temps = [] → cycle_statistics temps = none
      ∧ ∀ (v c : List ℚ) (s : ℕ) (es : List JumpEvent),
          generate_simulation_csv v temps c s es = none)
    ∧ (temps ≠ [] → ∃ m, cycle_statistics temps = some (cycle_stats_row m)
        ∧ (cycle_stats_row m).max_temp = m ∧ m ∈ temps ∧ ∀ x ∈ temps, x ≤ m)
    ∧ (∀ m₁ m₂ : ℚ,
        { cycle_stats_row m₁ with max_temp := 0 }
          = { cycle_stats_row m₂ with max_temp := 0 }) := by
  refine ⟨?_, ?_, fun m₁ m₂ => rfl⟩
  · intro h
    subst h
    exact ⟨rfl, fun v c s es => rfl⟩
  · intro h
    cases hl : listMax temps with
    | none => cases temps with
      | nil => exact absurd rfl h
      | cons y ys => simp [listMax] at hl
    | some m =>
      obtain ⟨hmem, hle⟩ := listMax_spec temps m hl
      exact ⟨m, by simp [cycle_statistics, hl], rfl, hmem, hle⟩

/-- Witness for cycleStats_max_temp on the spec's example sequence
[25.0, 40.0, 30.0]: the maximum is 40.0. -/
theorem cycleStats_max_temp_witness :
    (([] : List ℚ) = [] → cycle_statistics [] = none
      ∧ ∀ (v c : List ℚ) (s : ℕ) (es : List JumpEvent),
          generate_simulation_csv v [] c s es = none)
    ∧ (([25, 40, 30] : List ℚ) ≠ [] →
        ∃ m, cycle_statistics [25, 40, 30] = some (cycle_stats_row m)
          ∧ (cycle_stats_row m).max_temp = m ∧ m ∈ ([25, 40, 30] : List ℚ)
          ∧ ∀ x ∈ ([25, 40, 30] : List ℚ), x ≤ m)
    ∧ cycle_statistics [25, 40, 30] = some (cycle_stats_row 40) :=
  ⟨(cycleStats_max_temp []).1, (cycleStats_max_temp [25, 40, 30]).2.1, by
    norm_num [cycle_statistics, listMax]⟩

/-- C6: the Operation Log holds one data row per jump event in input order,
with cells (timestamp, sample_id, event description) and no validation of
sample_id; an empty event list leaves the section header-only. -/
theorem eventLog_rows (es : List JumpEvent) :
    (op_log es).length = es.length
    ∧ (∀ (i : ℕ) (h : i < es.length),
        (op_log es)[i]? = some [(es.get ⟨i, h⟩).timestamp,
          intStr ((es.get ⟨i, h⟩).sample_id), (es.get ⟨i, h⟩).event])
    ∧ csvTable opHeader (op_log []) = String.intercalate "," opHeader ++ "\n" := by
  refine ⟨by simp [op_log], ?_, ?_⟩
  · intro i h
    simp [op_log, List.getElem?_map, List.getElem?_eq_getElem h,
      List.get_eq_getElem]
  · simp [op_log, csvTable, csvLine, String.join]

/-- Witness for eventLog_rows: a two-event list, the second event carrying a
sample_id far outside the sample range, still yields exactly its own row. -/
theorem eventLog_rows_witness :
    (op_log [⟨"19:31.7", 3, "Step jumped due to time limit"⟩,
        ⟨"20:00.0", -42, "Out of range annotation"⟩]).length = 2
    ∧ (op_log [⟨"19:31.7", 3, "Step jumped due to time limit"⟩,
        ⟨"20:00.0", -42, "Out of range annotation"⟩])[1]?
      = some ["20:00.0", intStr (-42), "Out of range annotation"] := by
  have h := eventLog_rows [⟨"19:31.7", 3, "Step jumped due to time limit"⟩,
    ⟨"20:00.0", -42, "Out of range annotation"⟩]
  exact ⟨h.1, h.2.1 1 (by decide)⟩

/-- C10: generate_simulation_csv fails exactly when the temperature sequence
is empty; with non-empty temps it succeeds even when voltages and currents are
both empty (zero Test Data rows), and the Max Temp aggregate ranges over the
entire temperature sequence. -/
theorem failure_iff_temps_empty (v t c : List ℚ) (s : ℕ) (es : List JumpEvent) :
    (generate_simulation_csv v t c s es = none ↔ t = [])
    ∧ (t ≠ [] → test_data_rows [] t [] s = []
        ∧ (generate_simulation_csv [] t [] s es).isSome = true)
    ∧ (∀ m, listMax t = some m → m ∈ t ∧ ∀ x ∈ t, x ≤ m) := by
  refine ⟨?_, ?_, fun m hm => listMax_spec t m hm⟩
  · cases t with
    | nil => simp [generate_simulation_csv, listMax]
    | cons y ys =>
      simp [generate_simulation_csv, listMax]
  · intro h
    constructor
    · simp [test_data_rows]
    · cases t with
      | nil => exact absurd rfl h
      | cons y ys => simp [generate_simulation_csv, listMax]

/-- Witness for failure_iff_temps_empty with a two-element temperature list
whose second element, beyond any truncated row, is the maximum. -/
theorem failure_iff_temps_empty_witness :
    (generate_simulation_csv [3.2] [28, 44] [1.5] 0 [] = none ↔ ([28, 44] : List ℚ) = [])
    ∧ (([28, 44] : List ℚ) ≠ [] → test_data_rows [] [28, 44] [] 0 = []
        ∧ (generate_simulation_csv [] [28, 44] [] 0 []).isSome = true)
    ∧ (∀ m, listMax [28, 44] = some m → m ∈ ([28, 44] : List ℚ)
        ∧ ∀ x ∈ ([28, 44] : List ℚ), x ≤ m) :=
  failure_iff_temps_empty [3.2] [28, 44] [1.5] 0 []

/-- Spec-side rendering of one labeled section: a header line of the form
enclosed in hash marks, then a comma-separated header record and one record
per data row. -/
def specSection (name : String) (header : List String) (rows : List (List String)) : String :=
  "### " ++ name ++ " ###" ++ "\n" ++ csvLine header ++ String.join (rows.map csvLine)

/-- Spec-side report: the ordered concatenation of four sections, consecutive
sections separated by a blank line. -/
def specReport (s1 s2 s3 s4 : String) : String :=
  s1 ++ "\n" ++ s2 ++ "\n" ++ s3 ++ "\n" ++ s4

lemma append_merge2 (a b c r : String) (h : a ++ b = c) : a ++ (b ++ r) = c ++ r := by
  rw [← String.append_assoc, h]

lemma specSection_eq (name : String) (header : List String) (rows : List (List String)) :
    specSection name header rows
      = ("### " ++ name ++ " ###" ++ "\n") ++ csvTable header rows := by
  simp [specSection, csvTable, String.append_assoc]

/-- C7: whenever the report is produced, it is the ordered concatenation of
exactly the four sections Test Data, Cycle Statistics (one data row),
Operation Log, and Process Information (one fixed data row independent of the
inputs), each a hash-marked header line followed by a comma-separated header
record and data records, with a blank line between consecutive sections. -/
theorem report_four_sections (v t c : List ℚ) (s : ℕ) (es : List JumpEvent)
    (m : ℚ) (hm : listMax t = some m) :
    generate_simulation_csv v t c s es = some (specReport
      (specSection "Test Data" testHeader
        ((test_data_rows v t c s).map testRowCells))
      (specSection "Cycle Statistics" statsHeader
        [statsRowCells (cycle_stats_row m)])
      (specSection "Operation Log" opHeader (op_log es))
      (specSection "Process Information" procHeader [procCells])) := by
  have p1 : ("### " ++ "Test Data" ++ " ###" ++ "\n" : String)
      = "### Test Data ###\n" := by decide
  have p2 : ("### " ++ "Cycle Statistics" ++ " ###" ++ "\n" : String)
      = "### Cycle Statistics ###\n" := by decide
  have p3 : ("### " ++ "Operation Log" ++ " ###" ++ "\n" : String)
      = "### Operation Log ###\n" := by decide
  have p4 : ("### " ++ "Process Information" ++ " ###" ++ "\n" : String)
      = "### Process Information ###\n" := by decide
  simp only [generate_simulation_csv, hm]
  simp only [specReport, specSection_eq, p1, p2, p3, p4]
  simp only [String.append_assoc]
  rw [append_merge2 "\n" "### Cycle Statistics ###\n" "\n### Cycle Statistics ###\n" _
      (by decide),
    append_merge2 "\n" "### Operation Log ###\n" "\n### Operation Log ###\n" _
      (by decide),
    append_merge2 "\n" "### Process Information ###\n" "\n### Process Information ###\n" _
      (by decide)]

/-- Witness for report_four_sections on a one-sample run with one jump
event. -/
theorem report_four_sections_witness :
    listMax [(30 : ℚ)] = some 30
    ∧ generate_simulation_csv [3.2] [30] [1.5] 0
        [⟨"19:31.7", 3, "Step jumped due to time limit"⟩] = some (specReport
      (specSection "Test Data" testHeader
        ((test_data_rows [3.2] [30] [1.5] 0).map testRowCells))
      (specSection "Cycle Statistics" statsHeader
        [statsRowCells (cycle_stats_row 30)])
      (specSection "Operation Log" opHeader
        (op_log [⟨"19:31.7", 3, "Step jumped due to time limit"⟩]))
      (specSection "Process Information" procHeader [procCells])) :=
  ⟨rfl, report_four_sections [3.2] [30] [1.5] 0
    [⟨"19:31.7", 3, "Step jumped due to time limit"⟩] 30 rfl⟩

lemma digitCh_toNat (d : ℕ) (h : d < 10) : (digitCh d).toNat = 48 + d := by
  interval_cases d <;> rfl

lemma natDigits_digit (n : ℕ) : ∀ c ∈ natDigits n, 48 ≤ c.toNat ∧ c.toNat ≤ 57 := by
  induction n using Nat.strong_induction_on with
  | _ n ih =>
    rw [natDigits]
    split
    · next h =>
      intro c hc
      rw [List.mem_singleton] at hc
      subst hc
      rw [digitCh_toNat n h]
      omega
    · next h =>
      intro c hc
      rcases List.mem_append.1 hc with hc | hc
      · exact ih (n / 10) (Nat.div_lt_self (by omega) (by omega)) c hc
      · rw [List.mem_singleton] at hc
        subst hc
        rw [digitCh_toNat _ (Nat.mod_lt n (by omega))]
        omega

lemma natDigits_ne_nil (n : ℕ) : natDigits n ≠ [] := by
  rw [natDigits]
  split
  · simp
  · simp

lemma parseNatAux_append (acc : ℕ) (xs ys : List Char) :
    parseNatAux acc (xs ++ ys) = (parseNatAux acc xs).bind fun a => parseNatAux a ys := by
  induction xs generalizing acc with
  | nil => rfl
  | cons c cs ih =>
    simp only [List.cons_append, parseNatAux]
    split
    · exact ih _
    · rfl

lemma parseNatAux_single (acc d : ℕ) (hd : d < 10) :
    parseNatAux acc [digitCh d] = some (acc * 10 + d) := by
  simp only [parseNatAux]
  rw [digitCh_toNat d hd]
  rw [if_pos (by omega : 48 ≤ 48 + d ∧ 48 + d ≤ 57)]
  congr 1
  omega

lemma parseNatAux_natDigits (n : ℕ) :
    ∀ acc, parseNatAux acc (natDigits n) = some (acc * 10 ^ (natDigits n).length + n) := by
  induction n using Nat.strong_induction_on with
  | _ n ih =>
    intro acc
    rw [natDigits]
    split
    · next h =>
      rw [parseNatAux_single acc n h]
      simp
    · next h =>
      rw [parseNatAux_append, ih (n / 10) (Nat.div_lt_self (by omega) (by omega)) acc,
        Option.some_bind, parseNatAux_single _ _ (Nat.mod_lt n (by omega))]
      have hlen : (natDigits (n / 10) ++ [digitCh (n % 10)]).length
          = (natDigits (n / 10)).length + 1 := by simp
      rw [hlen]
      congr 1
      calc (acc * 10 ^ (natDigits (n / 10)).length + n / 10) * 10 + n % 10
          = acc * (10 ^ (natDigits (n / 10)).length * 10) + (10 * (n / 10) + n % 10) := by
            ring
        _ = acc * 10 ^ ((natDigits (n / 10)).length + 1) + n := by
            rw [Nat.div_add_mod, pow_succ]

lemma parseNat_natDigits (n : ℕ) : parseNat (natDigits n) = some n := by
  cases h : natDigits n with
  | nil => exact absurd h (natDigits_ne_nil n)
  | cons c cs =>
    have h2 := parseNatAux_natDigits n 0
    rw [h] at h2
    simpa [parseNat] using h2

lemma padDigits_length (l : ℕ) : ∀ f, (padDigits l f).length = l := by
  induction l with
  | zero => intro f; rfl
  | succ l ih => intro f; simp [padDigits, ih]

lemma padDigits_digit (l : ℕ) : ∀ f, ∀ c ∈ padDigits l f, 48 ≤ c.toNat ∧ c.toNat ≤ 57 := by
  induction l with
  | zero => intro f c hc; cases hc
  | succ l ih =>
    intro f c hc
    simp only [padDigits] at hc
    rcases List.mem_append.1 hc with hc | hc
    · exact ih (f / 10) c hc
    · rw [List.mem_singleton] at hc
      subst hc
      rw [digitCh_toNat _ (Nat.mod_lt f (by omega))]
      omega

lemma parseNatAux_padDigits (l : ℕ) :
    ∀ f, f < 10 ^ l → ∀ acc, parseNatAux acc (padDigits l f) = some (acc * 10 ^ l + f) := by
  induction l with
  | zero =>
    intro f hf acc
    have : f = 0 := by simpa using hf
    subst this
    simp [padDigits, parseNatAux]
  | succ l ih =>
    intro f hf acc
    have hf10 : f / 10 < 10 ^ l := by
      rw [Nat.div_lt_iff_lt_mul (by omega)]
      rw [pow_succ] at hf
      omega
    simp only [padDigits]
    rw [parseNatAux_append, ih (f / 10) hf10 acc, Option.some_bind,
      parseNatAux_single _ _ (Nat.mod_lt f (by omega))]
    congr 1
    calc (acc * 10 ^ l + f / 10) * 10 + f % 10
        = acc * (10 ^ l * 10) + (10 * (f / 10) + f % 10) := by ring
      _ = acc * 10 ^ (l + 1) + f := by rw [Nat.div_add_mod, pow_succ]

lemma parseNat_padDigits (l f : ℕ) (hl : l ≠ 0) (hf : f < 10 ^ l) :
    parseNat (padDigits l f) = some f := by
  cases h : padDigits l f with
  | nil =>
    have := padDigits_length l f
    rw [h] at this
    simp at this
    omega
  | cons c cs =>
    have h2 := parseNatAux_padDigits l f hf 0
    rw [h] at h2
    simpa [parseNat] using h2

lemma stripTail_spec (l : ℕ) : ∀ f, f < 10 ^ l →
    (stripTail f l).1 * 10 ^ (l - (stripTail f l).2) = f
    ∧ (stripTail f l).2 ≤ l
    ∧ (stripTail f l).1 < 10 ^ (stripTail f l).2
    ∧ (l ≠ 0 → (stripTail f l).2 ≠ 0) := by
  induction l with
  | zero =>
    intro f hf
    refine ⟨by simp [stripTail], le_refl _, by simpa [stripTail] using hf, ?_⟩
    intro h
    exact absurd rfl h
  | succ l ih =>
    intro f hf
    simp only [stripTail]
    split
    · next hcond =>
      have hf10 : f / 10 < 10 ^ l := by
        rw [Nat.div_lt_iff_lt_mul (by omega)]
        rw [pow_succ] at hf
        omega
      obtain ⟨h1, h2, h3, h4⟩ := ih (f / 10) hf10
      refine ⟨?_, by omega, h3, fun _ => h4 hcond.2⟩
      rw [show l + 1 - (stripTail (f / 10) l).2 = (l - (stripTail (f / 10) l).2) + 1 by
        omega]
      rw [pow_succ, ← Nat.mul_assoc, h1]
      omega
    · next hcond =>
      exact ⟨by simp, le_refl _, hf, by omega⟩

lemma splitSep_cons (sep c : Char) (cs : List Char) :
    splitSep sep (c :: cs) = match splitSep sep cs with
      | [] => [[]]
      | l :: ls => if c = sep then [] :: l :: ls else (c :: l) :: ls := rfl

lemma splitSep_ne_nil (sep : Char) (l : List Char) : splitSep sep l ≠ [] := by
  induction l with
  | nil => simp [splitSep]
  | cons c cs ih =>
    rw [splitSep_cons]
    cases h : splitSep sep cs with
    | nil => simp
    | cons a as => by_cases hcs : c = sep <;> simp [hcs]

lemma splitSep_no_sep (sep : Char) (xs : List Char) (h : sep ∉ xs) :
    splitSep sep xs = [xs] := by
  induction xs with
  | nil => rfl
  | cons c cs ih =>
    have hc : c ≠ sep := fun e => h (e ▸ List.mem_cons_self c cs)
    have hcs : sep ∉ cs := fun hm => h (List.mem_cons_of_mem c hm)
    rw [splitSep_cons, ih hcs]
    simp [hc]

lemma splitSep_append (sep : Char) (xs ys : List Char) (h : sep ∉ xs) :
    splitSep sep (xs ++ sep :: ys) = xs :: splitSep sep ys := by
  induction xs with
  | nil =>
    rw [List.nil_append, splitSep_cons]
    cases hy : splitSep sep ys with
    | nil => exact absurd hy (splitSep_ne_nil sep ys)
    | cons a as => simp
  | cons c cs ih =>
    have hc : c ≠ sep := fun e => h (e ▸ List.mem_cons_self c cs)
    have hcs : sep ∉ cs := fun hm => h (List.mem_cons_of_mem c hm)
    show splitSep sep (c :: (cs ++ sep :: ys)) = (c :: cs) :: splitSep sep ys
    rw [splitSep_cons, ih hcs]
    simp [hc]

lemma roundHalfEven_intCast (z : ℤ) : roundHalfEven (z : ℚ) = z := by
  simp only [roundHalfEven, Int.floor_intCast, sub_self]
  norm_num

lemma not_digit_mem_natDigits (n : ℕ) (ch : Char)
    (h : ch.toNat < 48 ∨ 57 < ch.toNat) : ch ∉ natDigits n := by
  intro hm
  have := natDigits_digit n ch hm
  omega

lemma not_digit_mem_padDigits (l f : ℕ) (ch : Char)
    (h : ch.toNat < 48 ∨ 57 < ch.toNat) : ch ∉ padDigits l f := by
  intro hm
  have := padDigits_digit l f ch hm
  omega

lemma not_mem_renderQChars (q : ℚ) (ch : Char) (h45 : ch.toNat ≠ 45)
    (h46 : ch.toNat ≠ 46) (hdig : ch.toNat < 48 ∨ 57 < ch.toNat) :
    ch ∉ renderQChars q := by
  intro hm
  simp only [renderQChars, List.mem_append, List.mem_cons] at hm
  rcases hm with (hm | hm) | (hm | hm)
  · by_cases hq : q < 0
    · rw [if_pos hq, List.mem_singleton] at hm
      subst hm
      exact h45 rfl
    · rw [if_neg hq] at hm
      cases hm
  · exact not_digit_mem_natDigits _ ch hdig hm
  · subst hm
    exact h46 rfl
  · exact not_digit_mem_padDigits _ _ ch hdig hm

lemma parseDec_renderQChars (q : ℚ) (n : ℕ) (hn : q * 1000000 = (n : ℚ)) :
    parseDec (renderQChars q) = some q := by
  have hq : 0 ≤ q := by
    have hq2 : q = (n : ℚ) / 1000000 := by
      rw [eq_div_iff (by norm_num)]
      exact hn
    rw [hq2]
    positivity
  have hk : roundHalfEven (|q| * 1000000) = (n : ℤ) := by
    rw [abs_of_nonneg hq, hn, show ((n : ℕ) : ℚ) = ((n : ℤ) : ℚ) from by push_cast; rfl]
    exact roundHalfEven_intCast n
  have hk2 : (roundHalfEven (|q| * 1000000)).toNat = n := by
    rw [hk]
    rfl
  have hfr : n % 1000000 < 10 ^ 6 := by
    have := Nat.mod_lt n (show 0 < 1000000 by norm_num)
    norm_num
    omega
  obtain ⟨h1, h2, h3, h4⟩ := stripTail_spec 6 (n % 1000000) hfr
  have hL : (stripTail (n % 1000000) 6).2 ≠ 0 := h4 (by omega)
  have hrender : renderQChars q = natDigits (n / 1000000)
      ++ '.' :: padDigits (stripTail (n % 1000000) 6).2 (stripTail (n % 1000000) 6).1 := by
    simp only [renderQChars, hk2, hq.not_lt, if_false, List.nil_append]
  have hdot1 : '.' ∉ natDigits (n / 1000000) :=
    not_digit_mem_natDigits _ '.' (by decide)
  have hdot2 : '.' ∉ padDigits (stripTail (n % 1000000) 6).2 (stripTail (n % 1000000) 6).1 :=
    not_digit_mem_padDigits _ _ '.' (by decide)
  rw [hrender]
  simp only [parseDec]
  rw [splitSep_append '.' _ _ hdot1, splitSep_no_sep '.' _ hdot2]
  simp only [parseNat_natDigits, parseNat_padDigits _ _ hL h3, padDigits_length,
    Option.some.injEq]
  -- arithmetic: ip + f / 10 ^ L = q where n = ip * 10^6 + f * 10^(6-L)
  have c1 : ((n : ℕ) : ℚ) = 1000000 * ((n / 1000000 : ℕ) : ℚ) + ((n % 1000000 : ℕ) : ℚ) := by
    exact_mod_cast (Nat.div_add_mod n 1000000).symm
  have c2 : ((n % 1000000 : ℕ) : ℚ)
      = ((stripTail (n % 1000000) 6).1 : ℚ) * 10 ^ (6 - (stripTail (n % 1000000) 6).2) := by
    exact_mod_cast h1.symm
  have c3 : (10 : ℚ) ^ (6 - (stripTail (n % 1000000) 6).2)
      * 10 ^ (stripTail (n % 1000000) 6).2 = 1000000 := by
    rw [← pow_add, Nat.sub_add_cancel h2]
    norm_num
  have c4 : (10 : ℚ) ^ (6 - (stripTail (n % 1000000) 6).2) ≠ 0 := by positivity
  have key : ((n / 1000000 : ℕ) : ℚ) * 10 ^ (stripTail (n % 1000000) 6).2
      + ((stripTail (n % 1000000) 6).1 : ℚ)
      = q * 10 ^ (stripTail (n % 1000000) 6).2 := by
    apply mul_right_cancel₀ c4
    calc (((n / 1000000 : ℕ) : ℚ) * 10 ^ (stripTail (n % 1000000) 6).2
          + ((stripTail (n % 1000000) 6).1 : ℚ)) * 10 ^ (6 - (stripTail (n % 1000000) 6).2)
        = ((n / 1000000 : ℕ) : ℚ) * (10 ^ (6 - (stripTail (n % 1000000) 6).2)
            * 10 ^ (stripTail (n % 1000000) 6).2)
          + ((stripTail (n % 1000000) 6).1 : ℚ)
            * 10 ^ (6 - (stripTail (n % 1000000) 6).2) := by ring
      _ = ((n / 1000000 : ℕ) : ℚ) * 1000000 + ((n % 1000000 : ℕ) : ℚ) := by rw [c3, ← c2]
      _ = ((n : ℕ) : ℚ) := by rw [c1]; ring
      _ = q * 1000000 := hn.symm
      _ = q * (10 ^ (6 - (stripTail (n % 1000000) 6).2)
            * 10 ^ (stripTail (n % 1000000) 6).2) := by rw [c3]
      _ = q * 10 ^ (stripTail (n % 1000000) 6).2
            * 10 ^ (6 - (stripTail (n % 1000000) 6).2) := by ring
  have h10L : (10 : ℚ) ^ (stripTail (n % 1000000) 6).2 ≠ 0 := by positivity
  field_simp
  linarith [key]

lemma parseLine_simpleLine (r : SimpleRow)
    (hv : ∃ n : ℕ, r.voltage * 1000000 = (n : ℚ))
    (hc : ∃ n : ℕ, r.current * 1000000 = (n : ℚ))
    (ht : ∃ n : ℕ, r.temperature * 1000000 = (n : ℚ)) :
    parseLine (simpleLine r) = some r := by
  obtain ⟨nv, hv⟩ := hv
  obtain ⟨nc, hc⟩ := hc
  obtain ⟨nt, ht⟩ := ht
  have c1 : ',' ∉ natDigits r.time := not_digit_mem_natDigits _ ',' (by decide)
  have c2 : ',' ∉ renderQChars r.voltage :=
    not_mem_renderQChars _ ',' (by decide) (by decide) (by decide)
  have c3 : ',' ∉ renderQChars r.current :=
    not_mem_renderQChars _ ',' (by decide) (by decide) (by decide)
  have c4 : ',' ∉ renderQChars r.temperature :=
    not_mem_renderQChars _ ',' (by decide) (by decide) (by decide)
  simp only [parseLine, simpleLine]
  rw [splitSep_append ',' _ _ c1, splitSep_append ',' _ _ c2,
    splitSep_append ',' _ _ c3, splitSep_no_sep ',' _ c4]
  simp only [parseNat_natDigits, parseDec_renderQChars r.voltage nv hv,
    parseDec_renderQChars r.current nc hc, parseDec_renderQChars r.temperature nt ht]

lemma newline_not_mem_simpleLine (r : SimpleRow) : '\n' ∉ simpleLine r := by
  intro hm
  simp only [simpleLine, List.mem_append, List.mem_cons] at hm
  rcases hm with hm | hm | hm | hm | hm | hm | hm
  · exact not_digit_mem_natDigits _ '\n' (by decide) hm
  · exact absurd hm (by decide)
  · exact not_mem_renderQChars _ '\n' (by decide) (by decide) (by decide) hm
  · exact absurd hm (by decide)
  · exact not_mem_renderQChars _ '\n' (by decide) (by decide) (by decide) hm
  · exact absurd hm (by decide)
  · exact not_mem_renderQChars _ '\n' (by decide) (by decide) (by decide) hm

lemma splitSep_lines (lines : List (List Char)) (h : ∀ l ∈ lines, '\n' ∉ l) :
    splitSep '\n' ((lines.map fun l => l ++ ['\n']).flatten) = lines ++ [[]] := by
  induction lines with
  | nil => rfl
  | cons l ls ih =>
    simp only [List.map_cons, List.flatten_cons]
    rw [List.append_assoc, List.singleton_append]
    rw [splitSep_append '\n' l _ (h l (List.mem_cons_self l ls))]
    rw [ih fun x hx => h x (List.mem_cons_of_mem l hx)]
    rfl

lemma parseLines_map (rows : List SimpleRow)
    (h : ∀ r ∈ rows, (∃ n : ℕ, r.voltage * 1000000 = (n : ℚ))
      ∧ (∃ n : ℕ, r.current * 1000000 = (n : ℚ))
      ∧ (∃ n : ℕ, r.temperature * 1000000 = (n : ℚ))) :
    parseLines (rows.map simpleLine) = some rows := by
  induction rows with
  | nil => rfl
  | cons r rs ih =>
    obtain ⟨h1, h2, h3⟩ := h r (List.mem_cons_self r rs)
    simp only [List.map_cons, parseLines]
    rw [parseLine_simpleLine r h1 h2 h3,
      ih fun x hx => h x (List.mem_cons_of_mem r hx)]

/-- C8: parsing the Simple CSV export back into rows reproduces the original
(time, voltage, current, temperature) tuples exactly, for values at the
source's rounding precision (each float an exact multiple of a hundredth). -/
theorem simpleCSV_roundtrip (rows : List SimpleRow)
    (h : ∀ r ∈ rows, (∃ n : ℕ, r.voltage * 100 = (n : ℚ))
      ∧ (∃ n : ℕ, r.current * 100 = (n : ℚ))
      ∧ (∃ n : ℕ, r.temperature * 100 = (n : ℚ))) :
    parseSimpleCSV (simpleCSV rows) = some rows := by
  have h6 : ∀ r ∈ rows, (∃ n : ℕ, r.voltage * 1000000 = (n : ℚ))
      ∧ (∃ n : ℕ, r.current * 1000000 = (n : ℚ))
      ∧ (∃ n : ℕ, r.temperature * 1000000 = (n : ℚ)) := by
    intro r hr
    obtain ⟨⟨nv, hv⟩, ⟨nc, hc⟩, ⟨nt, ht⟩⟩ := h r hr
    refine ⟨⟨nv * 10000, ?_⟩, ⟨nc * 10000, ?_⟩, ⟨nt * 10000, ?_⟩⟩ <;> push_cast
    · calc r.voltage * 1000000 = r.voltage * 100 * 10000 := by ring
        _ = (nv : ℚ) * 10000 := by rw [hv]
    · calc r.current * 1000000 = r.current * 100 * 10000 := by ring
        _ = (nc : ℚ) * 10000 := by rw [hc]
    · calc r.temperature * 1000000 = r.temperature * 100 * 10000 := by ring
        _ = (nt : ℚ) * 10000 := by rw [ht]
  have hnl_header : '\n' ∉ simpleHeader := by decide
  have hnl_lines : ∀ l ∈ rows.map simpleLine, '\n' ∉ l := by
    intro l hl
    obtain ⟨r, _, rfl⟩ := List.mem_map.1 hl
    exact newline_not_mem_simpleLine r
  simp only [parseSimpleCSV, simpleCSV]
  rw [show rows.map (fun r => simpleLine r ++ ['\n'])
      = (rows.map simpleLine).map (fun l => l ++ ['\n']) from by rw [List.map_map]; rfl]
  rw [splitSep_append '\n' simpleHeader _ hnl_header,
    splitSep_lines (rows.map simpleLine) hnl_lines]
  simp only [List.getLast?_concat, List.dropLast_concat, and_self, if_true]
  exact parseLines_map rows h6

/-- Witness for simpleCSV_roundtrip on a two-row run. -/
theorem simpleCSV_roundtrip_witness :
    (∀ r ∈ ([⟨0, 3.14, 2.5, 30⟩, ⟨1, 4.2, 0.5, 25⟩] : List SimpleRow),
      (∃ n : ℕ, r.voltage * 100 = (n : ℚ))
      ∧ (∃ n : ℕ, r.current * 100 = (n : ℚ))
      ∧ (∃ n : ℕ, r.temperature * 100 = (n : ℚ)))
    ∧ parseSimpleCSV (simpleCSV [⟨0, 3.14, 2.5, 30⟩, ⟨1, 4.2, 0.5, 25⟩])
      = some [⟨0, 3.14, 2.5, 30⟩, ⟨1, 4.2, 0.5, 25⟩] := by
  have hyp : ∀ r ∈ ([⟨0, 3.14, 2.5, 30⟩, ⟨1, 4.2, 0.5, 25⟩] : List SimpleRow),
      (∃ n : ℕ, r.voltage * 100 = (n : ℚ))
      ∧ (∃ n : ℕ, r.current * 100 = (n : ℚ))
      ∧ (∃ n : ℕ, r.temperature * 100 = (n : ℚ)) := by
    intro r hr
    fin_cases hr
    · exact ⟨⟨314, by norm_num⟩, ⟨250, by norm_num⟩, ⟨3000, by norm_num⟩⟩
    · exact ⟨⟨420, by norm_num⟩, ⟨50, by norm_num⟩, ⟨2500, by norm_num⟩⟩
  exact ⟨hyp, simpleCSV_roundtrip _ hyp⟩
